import Mathlib

/-!
Shallow embedding of the document reconstruction engine of the `marker`
repository (`marker/postprocessors/markdown.py`), together with theorems
settling the frozen claims about it.

Strings are modelled as Lean `String` (a list of unicode characters, matching
Python's `str` of code points).  Bounding-box coordinates, which are floats in
the source, are modelled as integers: every claim about them involves only
subtraction, absolute value, `min` and comparisons, whose boolean structure is
the same in any linear ordered ring.  Python `None` is modelled with `Option`,
and Python truthiness of optional values with explicit `truthy` functions.
-/

namespace Marker

/-! ### Character classes used by the regexes in `markdown.py`

`line_separator` builds its regexes from the raw class strings
`lowercase_letters = r'\p{Lo}|\p{Ll}|\d'`, `hyphens = r'-—¬'`,
`all_letters = r'\p{L}|\d'`, `sentence_continuations = r',;\(\—\"\'\*'` and
`sentence_ends = r'。ๆ\.?!'`.  When interpolated into a character class
`[...]`, the literal `|` separators become members of the class, so `|`
belongs to the letter classes; we embed this faithfully.

The Unicode categories are embedded over the scripts the source targets (its
comment: "Should cover latin-derived languages and russian") plus the CJK and
Thai characters appearing in the class strings: ASCII for Latin, the Cyrillic
block for Russian, CJK unified ideographs and Thai as caseless (`Lo`) letters.
-/

/-- Python whitespace, as matched by `\s` and stripped by `str.strip`. -/
def isPySpace (c : Char) : Bool :=
  c == ' ' || c == '\t' || c == '\n' || c == '\r' || c == '\x0b' || c == '\x0c'

/-- Decimal digit (`\d`). -/
def isDigitClass (c : Char) : Bool := c.isDigit

/-- Lowercase letter (`\p{Ll}`), over Latin and Cyrillic. -/
def isLlChar (c : Char) : Bool :=
  ('a' ≤ c && c ≤ 'z') || (0x430 ≤ c.toNat && c.toNat ≤ 0x44F) || c.toNat == 0x451

/-- Uppercase letter (`\p{Lu}`), over Latin and Cyrillic. -/
def isLuChar (c : Char) : Bool :=
  ('A' ≤ c && c ≤ 'Z') || (0x410 ≤ c.toNat && c.toNat ≤ 0x42F) || c.toNat == 0x401

/-- Caseless letter (`\p{Lo}`): CJK unified ideographs, and the `Lo`
codepoints of the Thai block only — the consonants U+0E01..U+0E2E, the
independent vowels U+0E30, U+0E32, U+0E33 and U+0E40..U+0E45.  The Thai
block's combining marks (`Mn`), the currency sign U+0E3F (`Sc`), the
repetition mark U+0E46 (`Lm`) and its punctuation (`Po`) are not `Lo` and
are excluded, as Python's `\p{Lo}` excludes them. -/
def isLoChar (c : Char) : Bool :=
  (0x4E00 ≤ c.toNat && c.toNat ≤ 0x9FFF) ||
  (0x0E01 ≤ c.toNat && c.toNat ≤ 0x0E2E) ||
  c.toNat == 0x0E30 || c.toNat == 0x0E32 || c.toNat == 0x0E33 ||
  (0x0E40 ≤ c.toNat && c.toNat ≤ 0x0E45)

/-- The class `[\p{Lo}|\p{Ll}|\d]` from `lowercase_letters` (the literal `|`
is a member of the class). -/
def isLowerClassChar (c : Char) : Bool :=
  isLoChar c || isLlChar c || isDigitClass c || c == '|'

/-- The class `[\p{L}|\d]` from `all_letters`. -/
def isAllLetterChar (c : Char) : Bool :=
  isLlChar c || isLuChar c || isLoChar c || isDigitClass c || c == '|'

/-- The class `[-—¬]` from `hyphens`. -/
def isHyphenChar (c : Char) : Bool :=
  c == '-' || c == '—' || c == '¬'

/-- The class `[,;\(\—\"\'\*]` from `sentence_continuations`. -/
def isContinuationChar (c : Char) : Bool :=
  c == ',' || c == ';' || c == '(' || c == '—' || c == '"' || c == '\'' || c == '*'

/-- The class `[。ๆ\.?!]` from `sentence_ends`. -/
def isSentenceEndChar (c : Char) : Bool :=
  c == '。' || c == 'ๆ' || c == '.' || c == '?' || c == '!'

/-! ### Python string primitives -/

/-- Python `str.lstrip()`. -/
def pyLstrip (s : String) : String := ⟨s.data.dropWhile isPySpace⟩

/-- Python `str.rstrip()`. -/
def pyRstrip (s : String) : String := ⟨(s.data.reverse.dropWhile isPySpace).reverse⟩

/-- Python `str.strip()`. -/
def pyStrip (s : String) : String := pyRstrip (pyLstrip s)

/-- A cased character, over the Latin and Cyrillic letters this embedding
models (Python's title casing tracks whether the previous character was
cased; digits, punctuation and caseless letters are uncased). -/
def isCasedChar (c : Char) : Bool :=
  ('a' ≤ c && c ≤ 'z') || ('A' ≤ c && c ≤ 'Z') ||
  (0x410 ≤ c.toNat && c.toNat ≤ 0x44F) || c.toNat == 0x401 || c.toNat == 0x451

/-- Lowercasing over Latin and Cyrillic (`str.lower()` on one character). -/
def pyToLower (c : Char) : Char :=
  if 'A' ≤ c && c ≤ 'Z' then c.toLower
  else if 0x410 ≤ c.toNat && c.toNat ≤ 0x42F then Char.ofNat (c.toNat + 0x20)
  else if c.toNat == 0x401 then Char.ofNat 0x451
  else c

/-- Uppercasing over Latin and Cyrillic (titlecase coincides with uppercase
for these scripts). -/
def pyToUpper (c : Char) : Char :=
  if 'a' ≤ c && c ≤ 'z' then c.toUpper
  else if 0x430 ≤ c.toNat && c.toNat ≤ 0x44F then Char.ofNat (c.toNat - 0x20)
  else if c.toNat == 0x451 then Char.ofNat 0x401
  else c

/-- Python `str.lower()`. -/
def pyLower (s : String) : String := ⟨s.data.map pyToLower⟩

/-- Python `str.title()`: titlecase each character that follows an uncased
character, lowercase the cased characters that follow a cased one (used by
`block_surround` for headings). -/
def pyTitleAux : Bool → List Char → List Char
  | _, [] => []
  | prevCased, c :: cs =>
    if isCasedChar c then
      (if prevCased then pyToLower c else pyToUpper c) :: pyTitleAux true cs
    else
      c :: pyTitleAux false cs

/-- Python `str.title()`. -/
def pyTitle (s : String) : String := ⟨pyTitleAux false s.data⟩

/-- Python `str(x)` for an optional identifier: `None` prints as `"None"`. -/
def pyStr (o : Option String) : String :=
  match o with
  | none => "None"
  | some s => s

/-- Python truthiness of an optional string (`None` and `""` are falsy). -/
def truthyOptStr (o : Option String) : Bool :=
  match o with
  | none => false
  | some s => s ≠ ""

/-- Python truthiness of an optional integer (`None` and `0` are falsy). -/
def truthyOptInt (o : Option Int) : Bool :=
  match o with
  | none => false
  | some n => n ≠ 0

/-- `o if o else d` for an optional string (Python truthiness). -/
def orDefault (o : Option String) (d : String) : String :=
  match o with
  | none => d
  | some s => if s = "" then d else s

/-! ### `escape_markdown` (markdown.py lines 10-15)

`re.sub(r"[#]", r'\\\g<0>', text)` replaces every occurrence of `#` by a
backslash followed by that `#`, with no regard for what precedes it. -/

/-- Core of `escape_markdown` on character lists. -/
def escapeList : List Char → List Char
  | [] => []
  | c :: cs => if c = '#' then '\\' :: '#' :: escapeList cs else c :: escapeList cs

/-- `escape_markdown` from markdown.py. -/
def escape_markdown (text : String) : String := ⟨escapeList text.data⟩

/-! ### `surround_text` (markdown.py lines 18-24) -/

/-- `surround_text` from markdown.py: re-attach the leading and trailing
whitespace of `s` around the stripped string wrapped in `char_to_insert`. -/
def surround_text (s : String) (char_to_insert : String) : String :=
  let leading_whitespace : String := ⟨s.data.takeWhile isPySpace⟩
  let trailing_whitespace : String := ⟨(s.data.reverse.takeWhile isPySpace).reverse⟩
  let stripped_string := pyStrip s
  leading_whitespace ++ char_to_insert ++ stripped_string ++ char_to_insert ++
    trailing_whitespace

/-! ### `line_separator` (markdown.py lines 121-153)

Each compiled regex is embedded as the decidable predicate it denotes.  A
pattern of the shape `.*[A][B]?\s?$` (with `DOTALL`, without `MULTILINE`)
matches a string exactly when some suffix decomposition fits at an effective
end of the string; `$` matches at the very end and also just before a final
newline.  So each pattern is a disjunction of the finitely many letter-class
end shapes, tested on the reversed character list of the string and, when
the string ends with a newline, also on the reversed list with that final
newline removed. -/

/-- The end shapes of `.*[lowercase_letters][hyphens]\s?` at an anchor. -/
def hyphenEndForms (r : List Char) : Bool :=
  (match r with
   | h :: c :: _ => isHyphenChar h && isLowerClassChar c
   | _ => false) ||
  (match r with
   | w :: h :: c :: _ => isPySpace w && isHyphenChar h && isLowerClassChar c
   | _ => false)

/-- `hyphen_pattern = .*[lowercase_letters][hyphens]\s?$` (DOTALL): the end
shapes at the end of the string, or just before a final newline. -/
def hyphenPatternMatch (s : String) : Bool :=
  hyphenEndForms s.data.reverse ||
  (match s.data.reverse with
   | a :: r => a = '\n' && hyphenEndForms r
   | [] => false)

/-- `regex.match(rf"^\s?[lowercase_letters]", line2)`. -/
def lowerStartMatch (s : String) : Bool :=
  (match s.data with
   | c :: _ => isLowerClassChar c
   | _ => false) ||
  (match s.data with
   | w :: c :: _ => isPySpace w && isLowerClassChar c
   | _ => false)

/-- `regex.split(rf"[hyphens]\s?$", line1)[0]`: everything before the
hyphen of the leftmost match of `[hyphens]\s?$`.  With `$` matching at the
end or before a final newline, the matched tail is the final hyphen followed
by nothing, by one whitespace character, by a final newline, or by one
whitespace character and a final newline; everything before the hyphen is
returned (the string itself when the pattern does not match). -/
def splitHyphenEnd (s : String) : String :=
  match s.data.reverse with
  | [] => s
  | [a] => if isHyphenChar a then "" else s
  | a :: b :: rest =>
    if a = '\n' && isHyphenChar b then ⟨rest.reverse⟩
    else if a = '\n' && isPySpace b then
      (match rest with
       | h :: rest2 => if isHyphenChar h then ⟨rest2.reverse⟩ else s
       | [] => s)
    else if isPySpace a && isHyphenChar b then ⟨rest.reverse⟩
    else if isHyphenChar a then ⟨(b :: rest).reverse⟩
    else s

/-- The end shapes of `.*[lowercase_letters][sentence_continuations]?\s?`
at an anchor. -/
def lineEndForms (r : List Char) : Bool :=
  (match r with
   | c :: _ => isLowerClassChar c
   | _ => false) ||
  (match r with
   | a :: c :: _ => (isPySpace a || isContinuationChar a) && isLowerClassChar c
   | _ => false) ||
  (match r with
   | w :: a :: c :: _ => isPySpace w && isContinuationChar a && isLowerClassChar c
   | _ => false)

/-- `line_end_pattern = .*[lowercase_letters][sentence_continuations]?\s?$`:
the end shapes at the end of the string, or just before a final newline. -/
def lineEndPatternMatch (s : String) : Bool :=
  lineEndForms s.data.reverse ||
  (match s.data.reverse with
   | a :: r => a = '\n' && lineEndForms r
   | [] => false)

/-- `line_start_pattern = ^\s?[all_letters]`. -/
def lineStartPatternMatch (s : String) : Bool :=
  (match s.data with
   | c :: _ => isAllLetterChar c
   | _ => false) ||
  (match s.data with
   | w :: c :: _ => isPySpace w && isAllLetterChar c
   | _ => false)

/-- The end shapes of `.*[sentence_ends]\s?` at an anchor. -/
def sentenceEndForms (r : List Char) : Bool :=
  (match r with
   | c :: _ => isSentenceEndChar c
   | _ => false) ||
  (match r with
   | w :: c :: _ => isPySpace w && isSentenceEndChar c
   | _ => false)

/-- `sentence_end_pattern = .*[sentence_ends]\s?$`: the end shapes at the
end of the string, or just before a final newline. -/
def sentenceEndPatternMatch (s : String) : Bool :=
  sentenceEndForms s.data.reverse ||
  (match s.data.reverse with
   | a :: r => a = '\n' && sentenceEndForms r
   | [] => false)

/-- The `text_blocks` list of `line_separator`. -/
def textBlockTypes : List String := ["Text", "List-item", "Footnote", "Caption", "Figure"]

/-- `line_separator` from markdown.py. -/
def line_separator (line1 line2 : String) (block_type : String)
    (is_continuation : Bool) : String :=
  if line1 ≠ "" && hyphenPatternMatch line1 && lowerStartMatch line2 then
    pyRstrip (splitHyphenEnd line1) ++ pyLstrip line2
  else if block_type = "Title" ∨ block_type = "Section-header" then
    pyRstrip line1 ++ " " ++ pyLstrip line2
  else if block_type = "Formula" then
    line1 ++ "\n" ++ line2
  else if lineEndPatternMatch line1 && lineStartPatternMatch line2 &&
      decide (block_type ∈ textBlockTypes) then
    pyRstrip line1 ++ " " ++ pyLstrip line2
  else if is_continuation then
    pyRstrip line1 ++ " " ++ pyLstrip line2
  else if decide (block_type ∈ textBlockTypes) && sentenceEndPatternMatch line1 then
    line1 ++ "\n\n" ++ line2
  else if block_type = "Table" then
    line1 ++ "\n\n" ++ line2
  else
    line1 ++ "\n" ++ line2

/-! ### Data model

Modelled from the spec: the schema classes (`marker.schema.page.Page`,
`marker.schema.block.Block/Line/Span`, `marker.schema.merged.MergedLine/
MergedBlock/FullyMergedBlock`) are not part of the given sources; their
fields are taken from spec §3 and from the attribute accesses in
`markdown.py`.  A bounding box `[x0, y0, x1, y1]` (top-left origin) is a
record of four coordinates. -/

/-- Bounding box `[x0, y0, x1, y1]`, coordinates modelled as integers. -/
structure BBox where
  x0 : Int
  y0 : Int
  x1 : Int
  y1 : Int
deriving DecidableEq, Repr

/-- A text span: text, bounding box, font name, bold and italic flags. -/
structure Span where
  text : String
  bbox : BBox
  font : String
  bold : Bool
  italic : Bool
deriving DecidableEq, Repr

/-- A line: ordered spans, bounding box, optional stable identifier. -/
structure Line where
  spans : List Span
  bbox : BBox
  id : Option String
deriving DecidableEq, Repr

/-- A block: ordered lines, bounding box, block-type tag, optional heading
level, optional stable identifier. -/
structure Block where
  lines : List Line
  bbox : BBox
  block_type : String
  heading_level : Option Int
  id : Option String
deriving DecidableEq, Repr

/-- A page: page number, bounding box, ordered blocks. -/
structure Page where
  blocks : List Block
  pnum : Int
  bbox : BBox
deriving DecidableEq, Repr

/-- A merged line: text with markup and positional tag, fonts, bbox. -/
structure MergedLine where
  text : String
  fonts : List String
  bbox : BBox
deriving DecidableEq, Repr

/-- A per-page merged block of merged lines. -/
structure MergedBlock where
  lines : List MergedLine
  pnum : Int
  bbox : BBox
  block_type : String
  heading_level : Option Int
  id : Option String
deriving DecidableEq, Repr

/-- A fully joined output block. -/
structure FullyMergedBlock where
  text : String
  block_type : String
  page_start : Bool
  pnum : Option Int
  block_id : Option String
deriving DecidableEq, Repr

/-- Modelled from the spec: the configuration options of `marker.settings`
read by `markdown.py` (§6: `paginate_output`, `page_separator`,
`default_block_type`). -/
structure Settings where
  PAGINATE_OUTPUT : Bool
  PAGE_SEPARATOR : String
  DEFAULT_BLOCK_TYPE : String
deriving DecidableEq, Repr

/-! ### `merge_spans` (markdown.py lines 27-93) -/

/-- The `while` loop of markdown.py lines 43-49 over the spans after the
current one: the first span whose stripped text has length `> 2`, or, when
none qualifies, the last span examined (`None` only when there are no
following spans at all). -/
def findNextSpan : List Span → Option Span
  | [] => none
  | [s] => some s
  | s :: rest =>
    if (pyStrip s.text).length > 2 then some s else findNextSpan rest

/-- The text contributed by the span at position `i` of `spans` (markdown.py
lines 52-60): spans that are neither first nor last and longer than 3
characters are wrapped in `*` or `**` according to the italic/bold flags of
the span and of the lookahead span. -/
def spanText (spans : List Span) (i : Nat) (s : Span) : String :=
  let next_span := findNextSpan (spans.drop (i + 1))
  if s.text.length > 3 ∧ 0 < i ∧ i < spans.length - 1 then
    if s.italic && (match next_span with
                    | none => true
                    | some t => !t.italic) then
      surround_text s.text "*"
    else if s.bold && (match next_span with
                       | none => true
                       | some t => !t.bold) then
      surround_text s.text "**"
    else s.text
  else s.text

/-- The concatenation of all span texts of a line (markdown.py line 61). -/
def lineBody (spans : List Span) : String :=
  String.join (spans.enum.map (fun p => spanText spans p.1 p.2))

/-- The positional tag appended to every merged line (markdown.py line 62):
`f" [[\x7bpage_num\x7d_\x7bblock_id\x7d_\x7bline_id\x7d]]"`. -/
def positionalTag (page_num : Nat) (block_id line_id : Option String) : String :=
  " [[" ++ toString page_num ++ "_" ++ pyStr block_id ++ "_" ++ pyStr line_id ++ "]]"

/-- Lines 36-72 of markdown.py for one line: lines with no spans are skipped,
otherwise a `MergedLine` is produced whose text is the span bodies followed
by the positional tag and whose fonts are the lowercased span fonts. -/
def mergeLine (page_num : Nat) (block_id : Option String) (line : Line) :
    Option MergedLine :=
  if line.spans = [] then none
  else some
    { text := lineBody line.spans ++ positionalTag page_num block_id line.id
      fonts := line.spans.map (fun s => pyLower s.font)
      bbox := line.bbox }

/-- Lines 32-81 of markdown.py for one block: a block whose lines all vanish
is omitted. -/
def mergeBlock (page_num : Nat) (pnum : Int) (block : Block) :
    Option MergedBlock :=
  let block_lines := block.lines.filterMap (mergeLine page_num block.id)
  if block_lines = [] then none
  else some
    { lines := block_lines
      pnum := pnum
      bbox := block.bbox
      block_type := block.block_type
      heading_level := block.heading_level
      id := block.id }

/-- Lines 29-91 of markdown.py for one page: a page yielding no blocks gets
one empty placeholder `Text` block carrying the page's bounding box. -/
def mergePage (page_num : Nat) (page : Page) : List MergedBlock :=
  let page_blocks := page.blocks.filterMap (mergeBlock page_num page.pnum)
  if page_blocks = [] then
    [{ lines := []
       pnum := page.pnum
       bbox := page.bbox
       block_type := "Text"
       heading_level := none
       id := none }]
  else page_blocks

/-- `merge_spans` from markdown.py.  Note `page_num = pagenum + 1` is the
1-based position of the page in the input list (from `enumerate`), not the
page's `pnum` field. -/
def merge_spans (pages : List Page) : List (List MergedBlock) :=
  pages.enum.map (fun p => mergePage (p.1 + 1) p.2)

/-! ### `block_surround` (markdown.py lines 96-118)

`block_type` and `heading_level` may be Python `None` here (they are the
`prev_type`/`prev_heading_level` accumulator values), hence the `Option`
parameters; `None` compares unequal to every type string, selecting the
final fall-through.  The unused `block_id` parameter of the source is
omitted. -/

/-- `"#" * heading_level if heading_level is not None else "##"`. -/
def headingHashes (heading_level : Option Int) : String :=
  match heading_level with
  | none => "##"
  | some n => ⟨List.replicate n.toNat '#'⟩

/-- `block_surround` from markdown.py. -/
def block_surround (text : String) (block_type : Option String)
    (heading_level : Option Int) : String :=
  if block_type = some "Section-header" then
    if !(text.startsWith "#") then
      "\n" ++ headingHashes heading_level ++ " " ++ pyTitle (pyStrip text) ++ "\n"
    else text
  else if block_type = some "Title" then
    if !(text.startsWith "#") then
      "# " ++ pyTitle (pyStrip text) ++ "\n"
    else text
  else if block_type = some "Table" then
    "\n" ++ text ++ "\n"
  else if block_type = some "List-item" then
    escape_markdown (pyRstrip text) ++ "\n"
  else if block_type = some "Code" then
    "\n```\n" ++ text ++ "\n```\n"
  else if block_type = some "Text" then
    escape_markdown text
  else if block_type = some "Formula" then
    if (pyStrip text).startsWith "$$" && (pyStrip text).endsWith "$$" then
      "\n" ++ pyStrip text ++ "\n"
    else text
  else if block_type = some "Caption" then
    "\n" ++ escape_markdown text ++ "\n"
  else text

/-! ### `block_separator` (markdown.py lines 156-161) -/

/-- `block_separator` from markdown.py: a blank line after a `Text` block,
a single newline otherwise, followed by the new block's text. -/
def block_separator (prev_block block : FullyMergedBlock) : String :=
  (if prev_block.block_type = "Text" then "\n\n" else "\n") ++ block.text

/-! ### `merge_lines` (markdown.py lines 164-240)

The mutable loop state of the source is an explicit record threaded through
folds; each Python loop body becomes one step function. -/

/-- The accumulator state of `merge_lines`. -/
structure MLState where
  prev_type : Option String
  prev_line : Option MergedLine
  block_text : String
  block_type : String
  prev_heading_level : Option Int
  pnum : Option Int
  curr_block_id : Option String
deriving DecidableEq, Repr

/-- The initial state (markdown.py lines 166-172). -/
def initMLState : MLState :=
  { prev_type := none
    prev_line := none
    block_text := ""
    block_type := ""
    prev_heading_level := none
    pnum := none
    curr_block_id := none }

/-- The geometric continuation flag (markdown.py lines 217-222): height and
left x-coordinate of the current line against the previous one, and the
minimum of the two vertical distances against `max_block_gap`; all previous
values default to `0` when there is no previous line. -/
def isContinuationFlag (prev_line : Option MergedLine) (line : MergedLine)
    (max_block_gap : Int) : Bool :=
  let line_height := line.bbox.y1 - line.bbox.y0
  let prev_line_height := match prev_line with
    | some p => p.bbox.y1 - p.bbox.y0
    | none => 0
  let prev_line_x := match prev_line with
    | some p => p.bbox.x0
    | none => 0
  let vertical_dist := match prev_line with
    | some p => min |line.bbox.y0 - p.bbox.y1| |line.bbox.y1 - p.bbox.y0|
    | none => 0
  line_height == prev_line_height && line.bbox.x0 == prev_line_x &&
    vertical_dist < max_block_gap

/-- One iteration of the line loop (markdown.py lines 216-226), returning the
new `(prev_line, block_text)` pair. -/
def lineStep (max_block_gap : Int) (block_type : String)
    (acc : Option MergedLine × String) (line : MergedLine) :
    Option MergedLine × String :=
  let is_continuation := isContinuationFlag acc.1 line max_block_gap
  (some line,
   if acc.2 ≠ "" then line_separator acc.2 line.text block_type is_continuation
   else line.text)

/-- One iteration of the block loop (markdown.py lines 197-226): possibly
flush the accumulated text, then fold the block's lines.  Returns the list
of emitted `FullyMergedBlock`s and the new state. -/
def blockStep (s : Settings) (max_block_gap : Int) (st : MLState)
    (block : MergedBlock) : List FullyMergedBlock × MLState :=
  let flush :=
    (decide (some block.block_type ≠ st.prev_type) && truthyOptStr st.prev_type) ||
    (decide (block.heading_level ≠ st.prev_heading_level) &&
      truthyOptInt st.prev_heading_level)
  let emitted : List FullyMergedBlock :=
    if flush then
      [{ text := block_surround st.block_text st.prev_type st.prev_heading_level
         block_type := orDefault st.prev_type s.DEFAULT_BLOCK_TYPE
         page_start := false
         pnum := some block.pnum
         block_id := block.id }]
    else []
  let block_text0 := if flush then "" else st.block_text
  let folded := block.lines.foldl (lineStep max_block_gap block.block_type)
    (st.prev_line, block_text0)
  (emitted,
   { prev_type := some block.block_type
     prev_line := folded.1
     block_text := folded.2
     block_type := block.block_type
     prev_heading_level := block.heading_level
     pnum := some block.pnum
     curr_block_id := block.id })

/-- One iteration of the page loop (markdown.py lines 174-226): with
pagination enabled, flush any accumulated text and emit a page-boundary
marker (whose page number is read from the first block of the page's list;
an empty list, on which the source would raise `IndexError`, is modelled as
`none`), then fold the page's blocks. -/
def pageStep (s : Settings) (max_block_gap : Int)
    (acc : List FullyMergedBlock × MLState) (page : List MergedBlock) :
    List FullyMergedBlock × MLState :=
  let st := acc.2
  let paginated : List FullyMergedBlock × MLState :=
    if s.PAGINATE_OUTPUT then
      let flushed : List FullyMergedBlock :=
        if st.block_text ≠ "" then
          [{ text := block_surround st.block_text st.prev_type st.prev_heading_level
             block_type := orDefault st.prev_type s.DEFAULT_BLOCK_TYPE
             page_start := false
             pnum := st.pnum
             block_id := st.curr_block_id }]
        else []
      (flushed ++
        [{ text := ""
           block_type := "Text"
           page_start := true
           pnum := (page.head?).map MergedBlock.pnum
           block_id := none }],
       if st.block_text ≠ "" then { st with block_text := "" } else st)
    else ([], st)
  let folded := page.foldl
    (fun a b =>
      let r := blockStep s max_block_gap a.2 b
      (a.1 ++ r.1, r.2))
    (([] : List FullyMergedBlock), paginated.2)
  (acc.1 ++ paginated.1 ++ folded.1, folded.2)

/-- `merge_lines` from markdown.py (default `max_block_gap` is 15): fold
over the pages, append the final flush, and drop blocks whose text strips to
empty unless they are page-boundary markers. -/
def merge_lines (s : Settings) (blocks : List (List MergedBlock))
    (max_block_gap : Int) : List FullyMergedBlock :=
  let folded := blocks.foldl (pageStep s max_block_gap)
    (([] : List FullyMergedBlock), initMLState)
  let st := folded.2
  let final : FullyMergedBlock :=
    { text := block_surround st.block_text st.prev_type st.prev_heading_level
      block_type := if st.block_type ≠ "" then st.block_type else s.DEFAULT_BLOCK_TYPE
      page_start := false
      pnum := st.pnum
      block_id := st.curr_block_id }
  (folded.1 ++ [final]).filter
    (fun b => pyStrip b.text ≠ "" || b.page_start)

/-! ### `get_full_text` (markdown.py lines 243-254) -/

/-- The page marker emitted for a page-boundary block:
`"\n\n\x7b" + str(pnum) + "\x7d" + settings.PAGE_SEPARATOR`. -/
def pageMarker (s : Settings) (b : FullyMergedBlock) : String :=
  "\n\n\x7b" ++ (match b.pnum with
                 | none => "None"
                 | some n => toString n) ++ "\x7d" ++ s.PAGE_SEPARATOR

/-- The loop of `get_full_text` with the `prev_block` variable explicit. -/
def renderFrom (s : Settings) (prev_block : Option FullyMergedBlock) :
    List FullyMergedBlock → String
  | [] => ""
  | b :: bs =>
    (if b.page_start then pageMarker s b
     else match prev_block with
       | some p => block_separator p b
       | none => b.text) ++ renderFrom s (some b) bs

/-- `get_full_text` from markdown.py. -/
def get_full_text (s : Settings) (text_blocks : List FullyMergedBlock) : String :=
  renderFrom s none text_blocks

/-! ## Theorems -/

/-! ### Claim C2: idempotence of `escape_markdown` -/

theorem escapeList_length (l : List Char) :
    (escapeList l).length = l.length + l.count '#' := by
  induction l with
  | nil => rfl
  | cons c cs ih =>
    by_cases h : c = '#'
    · subst h
      simp [escapeList, List.count_cons, ih]
      omega
    · simp [escapeList, h, List.count_cons, ih]
      omega

theorem escapeList_count (l : List Char) :
    (escapeList l).count '#' = l.count '#' := by
  induction l with
  | nil => rfl
  | cons c cs ih =>
    by_cases h : c = '#'
    · subst h
      simp [escapeList, List.count_cons, ih]
    · simp [escapeList, h, List.count_cons, ih]

theorem escapeList_of_not_mem (l : List Char) (h : '#' ∉ l) :
    escapeList l = l := by
  induction l with
  | nil => rfl
  | cons c cs ih =>
    have hc : c ≠ '#' := by
      intro hc
      exact h (hc ▸ List.mem_cons_self c cs)
    have hcs : '#' ∉ cs := fun hm => h (List.mem_cons_of_mem c hm)
    simp [escapeList, hc, ih hcs]

/-- C2 counterexample: the claim "applying the markdown-escaping operation
twice yields the same result as applying it once: an already-escaped `#` is
not escaped again" is false at the input `"#"`: one application yields
`"\#"`, a second application escapes the `#` inside `"\#"` again and yields
`"\\#"`. -/
theorem escape_markdown_not_idempotent :
    escape_markdown (escape_markdown "#") ≠ escape_markdown "#" := by
  decide

/-- C2 (amended): applying `escape_markdown` twice agrees with applying it
once exactly when the input contains no `#` at all; on any input containing
`#`, the second application escapes the `#` of each previously produced
`\#` again, inserting an additional backslash. -/
theorem escape_markdown_idempotent_iff (t : String) :
    escape_markdown (escape_markdown t) = escape_markdown t ↔ '#' ∉ t.data := by
  constructor
  · intro h
    have hlen : (escapeList (escapeList t.data)).length = (escapeList t.data).length := by
      have := congrArg (fun s : String => s.data.length) h
      simpa [escape_markdown] using this
    rw [escapeList_length, escapeList_length, escapeList_count] at hlen
    have hz : t.data.count '#' = 0 := by omega
    exact (List.count_eq_zero).1 hz
  · intro h
    simp [escape_markdown, escapeList_of_not_mem t.data h]

/-! ### Claim C1: de-hyphenation in `line_separator` -/

theorem isPySpace_eq_true_iff (c : Char) :
    isPySpace c = true ↔
      c = ' ' ∨ c = '\t' ∨ c = '\n' ∨ c = '\r' ∨ c = '\x0b' ∨ c = '\x0c' := by
  simp [isPySpace]
  tauto

theorem not_pySpace_of_lowerClass (c : Char) (h : isLowerClassChar c = true) :
    isPySpace c = false := by
  cases hs : isPySpace c with
  | false => rfl
  | true =>
    rcases (isPySpace_eq_true_iff c).1 hs with h1 | h1 | h1 | h1 | h1 | h1 <;>
      subst h1 <;> simp [isLowerClassChar, isLoChar, isLlChar, isDigitClass] at h

theorem not_pySpace_of_hyphen (c : Char) (h : isHyphenChar c = true) :
    isPySpace c = false := by
  cases hs : isPySpace c with
  | false => rfl
  | true =>
    rcases (isPySpace_eq_true_iff c).1 hs with h1 | h1 | h1 | h1 | h1 | h1 <;>
      subst h1 <;> simp [isHyphenChar] at h

theorem not_hyphen_of_pySpace (c : Char) (h : isPySpace c = true) :
    isHyphenChar c = false := by
  cases hh : isHyphenChar c with
  | false => rfl
  | true => rw [not_pySpace_of_hyphen c hh] at h; cases h

theorem hyphen_ne_newline (c : Char) (h : isHyphenChar c = true) :
    ¬(c = '\n') := by
  intro he
  subst he
  simp [isHyphenChar] at h

/-- C1 counterexample: the claim covers every previous text ending in a
letter-or-digit followed by a hyphen, but the code's character class
`\p{Lo}|\p{Ll}|\d` excludes uppercase letters: with previous text `"exA-"`
(uppercase `A` before the hyphen) and next line `"ple of text"`, the code
falls through to the default newline join instead of de-hyphenating. -/
theorem line_separator_dehyphenation_uppercase_cex :
    line_separator "exA-" "ple of text" "Text" false = "exA-\nple of text" ∧
      line_separator "exA-" "ple of text" "Text" false ≠ "exAple of text" := by
  decide

/-- C1 (amended): for every call of `line_separator` where the previous text
ends with a lowercase-or-caseless letter or digit (the code's class
`\p{Lo}|\p{Ll}|\d`, excluding uppercase) immediately followed by a
hyphen-class character and optional trailing whitespace (at most one
whitespace character, optionally followed by a final newline, per
`\s?$`), and the new line's text begins with such a character, the result
strips the trailing hyphen and whitespace and concatenates the two texts
directly with no inserted character. -/
theorem line_separator_dehyphenation (p : String) (c h d : Char)
    (tail rest : List Char) (bt : String) (cont : Bool)
    (hc : isLowerClassChar c = true) (hh : isHyphenChar h = true)
    (hd : isLowerClassChar d = true)
    (htail : tail = [] ∨
      ∃ w, isPySpace w = true ∧ (tail = [w] ∨ tail = [w, '\n'])) :
    line_separator (p ++ ⟨c :: h :: tail⟩) ⟨d :: rest⟩ bt cont =
      p ++ ⟨c :: d :: rest⟩ := by
  have hcs : isPySpace c = false := not_pySpace_of_lowerClass c hc
  have hhs : isPySpace h = false := not_pySpace_of_hyphen h hh
  have hds : isPySpace d = false := not_pySpace_of_lowerClass d hd
  have hhn : ¬(h = '\n') := hyphen_ne_newline h hh
  have hdata : (p ++ (⟨c :: h :: tail⟩ : String)).data = p.data ++ c :: h :: tail :=
    String.data_append p ⟨c :: h :: tail⟩
  have hne : (p ++ (⟨c :: h :: tail⟩ : String)) ≠ "" := by
    intro he
    have : (p ++ (⟨c :: h :: tail⟩ : String)).data = ([] : List Char) := by
      rw [he]
    rw [hdata] at this
    simp at this
  have hls : lowerStartMatch ⟨d :: rest⟩ = true := by
    simp [lowerStartMatch, hd]
  have key : hyphenPatternMatch (p ++ ⟨c :: h :: tail⟩) = true ∧
      splitHyphenEnd (p ++ ⟨c :: h :: tail⟩) = ⟨p.data ++ [c]⟩ := by
    rcases htail with rfl | ⟨w, hw, rfl | rfl⟩
    · constructor
      · simp only [hyphenPatternMatch, hyphenEndForms, hdata]
        simp [hh, hc]
      · simp only [splitHyphenEnd, hdata]
        simp [hhn, hhs, hh]
    · have hwh : isHyphenChar w = false := not_hyphen_of_pySpace w hw
      constructor
      · simp only [hyphenPatternMatch, hyphenEndForms, hdata]
        simp [hw, hh, hc]
      · by_cases hwn : w = '\n'
        · simp only [splitHyphenEnd, hdata]
          simp [hwn, hh]
        · simp only [splitHyphenEnd, hdata]
          simp [hwn, hw, hh]
    · have hwh : isHyphenChar w = false := not_hyphen_of_pySpace w hw
      have hnl : isHyphenChar '\n' = false := by decide
      have hnls : isPySpace '\n' = true := by decide
      constructor
      · simp only [hyphenPatternMatch, hyphenEndForms, hdata]
        simp [hw, hwh, hh, hc, hnl, hnls]
      · simp only [splitHyphenEnd, hdata]
        simp [hwh, hw, hh, hnl]
  have hr : pyRstrip ⟨p.data ++ [c]⟩ = ⟨p.data ++ [c]⟩ := by
    simp [pyRstrip, List.dropWhile_cons, hcs]
  have hl : pyLstrip ⟨d :: rest⟩ = ⟨d :: rest⟩ := by
    simp [pyLstrip, List.dropWhile_cons, hds]
  rw [line_separator, if_pos]
  · rw [key.2, hr, hl]
    apply String.ext
    simp [String.data_append]
  · show (_ && _) = true
    simp [hne, key.1, hls]

/-- C1 witness, the claim's own example plus the trailing-whitespace case:
joining `"exam-"` or `"exam- \n"` with `"ple of text"` yields
`"example of text"`. -/
theorem line_separator_dehyphenation_example :
    line_separator "exam-" "ple of text" "Text" false = "example of text" ∧
      line_separator "exam- \n" "ple of text" "Text" false =
        "example of text" := by
  constructor
  · have h := line_separator_dehyphenation "exa" 'm' '-' 'p' [] "le of text".data
      "Text" false (by decide) (by decide) (by decide) (Or.inl rfl)
    have e1 : ("exa" ++ (⟨'m' :: '-' :: ([] : List Char)⟩ : String)) = "exam-" := by
      decide
    have e2 : (⟨'p' :: "le of text".data⟩ : String) = "ple of text" := by decide
    have e3 : ("exa" ++ (⟨'m' :: 'p' :: "le of text".data⟩ : String)) =
        "example of text" := by decide
    rw [e1, e2, e3] at h
    exact h
  · have h := line_separator_dehyphenation "exa" 'm' '-' 'p' [' ', '\n']
      "le of text".data "Text" false (by decide) (by decide) (by decide)
      (Or.inr ⟨' ', by decide, Or.inr rfl⟩)
    have e1 : ("exa" ++ (⟨'m' :: '-' :: [' ', '\n']⟩ : String)) = "exam- \n" := by
      decide
    have e2 : (⟨'p' :: "le of text".data⟩ : String) = "ple of text" := by decide
    have e3 : ("exa" ++ (⟨'m' :: 'p' :: "le of text".data⟩ : String)) =
        "example of text" := by decide
    rw [e1, e2, e3] at h
    exact h

/-! ### Claim C8: Table block formatting -/

theorem takeWhile_append_nil {p : Char → Bool} (l r : List Char)
    (hl : l.takeWhile p = []) (hne : l ≠ []) :
    (l ++ r).takeWhile p = [] := by
  cases l with
  | nil => exact absurd rfl hne
  | cons c cs =>
    have hc : p c = false := by
      by_cases h : p c = true
      · simp [List.takeWhile_cons, h] at hl
      · simpa using h
    simp [List.takeWhile_cons, hc]

/-- C8 counterexample: the claim asserts exactly one leading and trailing
newline for every possible block content, but the code only concatenates:
for content `"\nx"` already starting with a newline, the result starts with
two newlines. -/
theorem table_surround_cex :
    block_surround "\nx" (some "Table") none = "\n\nx\n" ∧
      (block_surround "\nx" (some "Table") none).data.takeWhile
        (fun c => c == '\n') = ['\n', '\n'] := by
  decide

/-- C8 (amended): `block_surround` on a `Table` block prepends exactly one
newline and appends exactly one newline to the content; consequently the
result is surrounded by exactly one leading and one trailing newline
whenever the content is nonempty and does not itself begin or end with a
newline. -/
theorem table_surround_newlines :
    (∀ (t : String) (hl : Option Int),
      block_surround t (some "Table") hl = "\n" ++ t ++ "\n") ∧
    (∀ (t : String) (hl : Option Int),
      t ≠ "" →
      t.data.takeWhile (fun c => c == '\n') = [] →
      t.data.reverse.takeWhile (fun c => c == '\n') = [] →
      ((block_surround t (some "Table") hl).data.takeWhile
          (fun c => c == '\n')).length = 1 ∧
        ((block_surround t (some "Table") hl).data.reverse.takeWhile
          (fun c => c == '\n')).length = 1) := by
  have hsur : ∀ (t : String) (hl : Option Int),
      block_surround t (some "Table") hl = "\n" ++ t ++ "\n" := by
    intro t hl
    rfl
  refine ⟨hsur, ?_⟩
  intro t hl hne hhead htail
  have hdne : t.data ≠ [] := by
    intro h
    exact hne (String.ext h)
  have hdata : (block_surround t (some "Table") hl).data =
      '\n' :: (t.data ++ ['\n']) := by
    rw [hsur]
    simp [String.data_append]
  constructor
  · rw [hdata]
    simp only [List.takeWhile_cons]
    simp [takeWhile_append_nil t.data ['\n'] hhead hdne]
  · rw [hdata]
    have hrev : ('\n' :: (t.data ++ ['\n'])).reverse =
        '\n' :: (t.data.reverse ++ ['\n']) := by
      simp
    rw [hrev]
    simp only [List.takeWhile_cons]
    have hrne : t.data.reverse ≠ [] := by
      simpa using hdne
    simp [takeWhile_append_nil t.data.reverse ['\n'] htail hrne]

/-- C8 witness: at content `"x"`, the Table formatting yields `"\nx\n"`,
which starts and ends with exactly one newline. -/
theorem table_surround_newlines_example :
    ((block_surround "x" (some "Table") none).data.takeWhile
        (fun c => c == '\n')).length = 1 ∧
      ((block_surround "x" (some "Table") none).data.reverse.takeWhile
        (fun c => c == '\n')).length = 1 :=
  table_surround_newlines.2 "x" none (by decide) (by decide) (by decide)

/-! ### Claim C6: the geometric continuation flag -/

/-- C6: when a previous line exists (every line after the first line of the
document), the continuation flag is true exactly when the line's height
equals the previous line's height, its left x-coordinate equals the previous
line's left x-coordinate, and the minimum of the two vertical gaps is
strictly below `max_block_gap`; and the line loop passes exactly this flag
to `line_separator` whenever text has already accumulated. -/
theorem continuation_flag_spec :
    (∀ (p line : MergedLine) (gap : Int),
      isContinuationFlag (some p) line gap = true ↔
        (line.bbox.y1 - line.bbox.y0 = p.bbox.y1 - p.bbox.y0 ∧
         line.bbox.x0 = p.bbox.x0 ∧
         min |line.bbox.y0 - p.bbox.y1| |line.bbox.y1 - p.bbox.y0| < gap)) ∧
    (∀ (gap : Int) (bt acc : String) (p line : MergedLine),
      acc ≠ "" →
      lineStep gap bt (some p, acc) line =
        (some line,
         line_separator acc line.text bt (isContinuationFlag (some p) line gap))) := by
  constructor
  · intro p line gap
    simp [isContinuationFlag, and_assoc]
  · intro gap bt acc p line h
    simp [lineStep, h]

/-- C6 witness: concrete lines of equal height 10, equal left x-coordinate 0
and vertical gap 2 < 15 make the line loop pass a true flag. -/
theorem continuation_flag_example :
    lineStep 15 "Text" (some ⟨"a", [], ⟨0, 0, 100, 10⟩⟩, "acc")
        ⟨"b", [], ⟨0, 12, 100, 22⟩⟩ =
      (some ⟨"b", [], ⟨0, 12, 100, 22⟩⟩,
       line_separator "acc" "b" "Text"
         (isContinuationFlag (some ⟨"a", [], ⟨0, 0, 100, 10⟩⟩)
           ⟨"b", [], ⟨0, 12, 100, 22⟩⟩ 15)) :=
  continuation_flag_spec.2 15 "Text" "acc" ⟨"a", [], ⟨0, 0, 100, 10⟩⟩
    ⟨"b", [], ⟨0, 12, 100, 22⟩⟩ (by decide)

/-! ### Claim C5: the flush condition of the block loop -/

/-- C5 counterexample: the claim flushes whenever the heading level differs
from a non-null previous heading level, but Python truthiness also requires
the previous level to be non-zero: with previous heading level `0` (non-null)
and current heading level `2`, same block type, the code does not flush. -/
theorem block_flush_zero_heading_cex :
    (blockStep ⟨false, "", "Text"⟩ 15
        ⟨some "Text", none, "abc", "Text", some 0, some 0, none⟩
        ⟨[], 0, ⟨0, 0, 0, 0⟩, "Text", some 2, none⟩).1 = [] := by
  decide

/-- C5 (amended): the block loop flushes the accumulated text (with
block-type formatting applied) as a `FullyMergedBlock` exactly when the
current block's type differs from a previous non-empty block type, or the
current block's heading level differs from a non-null and non-zero previous
heading level. -/
theorem block_flush_iff (s : Settings) (gap : Int) (st : MLState)
    (b : MergedBlock) :
    (blockStep s gap st b).1 ≠ [] ↔
      ((∃ pt, st.prev_type = some pt ∧ pt ≠ "" ∧ b.block_type ≠ pt) ∨
       (∃ n, st.prev_heading_level = some n ∧ n ≠ 0 ∧
         b.heading_level ≠ some n)) := by
  have hstep : (blockStep s gap st b).1 ≠ [] ↔
      ((decide (some b.block_type ≠ st.prev_type) && truthyOptStr st.prev_type) ||
       (decide (b.heading_level ≠ st.prev_heading_level) &&
         truthyOptInt st.prev_heading_level)) = true := by
    simp only [blockStep]
    split <;> simp_all
  rw [hstep]
  cases hpt : st.prev_type with
  | none =>
    cases hph : st.prev_heading_level with
    | none => simp [truthyOptStr, truthyOptInt]
    | some n => simp [truthyOptStr, truthyOptInt, ne_comm, and_comm]
  | some pt =>
    cases hph : st.prev_heading_level with
    | none => simp [truthyOptStr, truthyOptInt, ne_comm, and_comm]
    | some n =>
      simp [truthyOptStr, truthyOptInt, ne_comm, and_comm]

/-! ### Claim C9: the flushed block carries the new block's identity -/

/-- C9: whenever the block loop flushes, the emitted `FullyMergedBlock`'s
page number and block identifier are those of the newly encountered block
that triggered the flush, while its text is the previously accumulated text
(with the previous block's formatting applied). -/
theorem flush_uses_new_block_identity (s : Settings) (gap : Int)
    (st : MLState) (b : MergedBlock) (fb : FullyMergedBlock)
    (h : fb ∈ (blockStep s gap st b).1) :
    fb.pnum = some b.pnum ∧ fb.block_id = b.id ∧
      fb.text = block_surround st.block_text st.prev_type st.prev_heading_level := by
  simp only [blockStep] at h
  split at h
  · rcases List.mem_singleton.1 h with rfl
    exact ⟨rfl, rfl, rfl⟩
  · exact absurd h (List.not_mem_nil fb)

/-- C9 witness: a `Table` block following accumulated `Text` content
triggers a flush whose emitted block carries the new block's page number 3
and identifier `"new"`, and the old accumulated text. -/
theorem flush_uses_new_block_identity_example :
    (⟨"hello", "Text", false, some 3, some "new"⟩ : FullyMergedBlock).pnum =
        some (⟨[], 3, ⟨0, 0, 0, 0⟩, "Table", none, some "new"⟩ : MergedBlock).pnum ∧
      (⟨"hello", "Text", false, some 3, some "new"⟩ : FullyMergedBlock).block_id =
        (⟨[], 3, ⟨0, 0, 0, 0⟩, "Table", none, some "new"⟩ : MergedBlock).id ∧
      (⟨"hello", "Text", false, some 3, some "new"⟩ : FullyMergedBlock).text =
        block_surround "hello" (some "Text") none :=
  flush_uses_new_block_identity ⟨false, "", "Text"⟩ 15
    ⟨some "Text", none, "hello", "Text", none, some 7, some "old"⟩
    ⟨[], 3, ⟨0, 0, 0, 0⟩, "Table", none, some "new"⟩
    ⟨"hello", "Text", false, some 3, some "new"⟩ (by decide)

/-! ### Claim C10: `merge_spans` never returns an empty per-page list -/

/-- C10: for every input page, the per-page list of merged blocks returned
by `merge_spans` is non-empty (an empty placeholder `Text` block is
substituted when a page yields none), so reading the first element of each
page's list is always safe. -/
theorem merge_spans_pages_nonempty (pages : List Page)
    (l : List MergedBlock) (h : l ∈ merge_spans pages) : l ≠ [] := by
  rw [merge_spans] at h
  rcases List.mem_map.1 h with ⟨⟨i, pg⟩, _, rfl⟩
  by_cases hpb : pg.blocks.filterMap (mergeBlock (i + 1) pg.pnum) = []
  · simp [mergePage, hpb]
  · simp [mergePage, hpb]

/-- C10 witness: a page with no blocks yields the singleton placeholder
list, which is non-empty. -/
theorem merge_spans_pages_nonempty_example :
    ([⟨[], 0, ⟨0, 0, 612, 792⟩, "Text", none, none⟩] : List MergedBlock) ≠ [] :=
  merge_spans_pages_nonempty [⟨[], 0, ⟨0, 0, 612, 792⟩⟩]
    [⟨[], 0, ⟨0, 0, 612, 792⟩, "Text", none, none⟩] (by decide)

/-! ### Claim C7: separators in the assembled document -/

/-- The value of the `prev_block` variable of `get_full_text` after a prefix
`l` has been rendered, starting from `o`. -/
def lastOr (o : Option FullyMergedBlock) (l : List FullyMergedBlock) :
    Option FullyMergedBlock :=
  match l.getLast? with
  | some x => some x
  | none => o

theorem lastOr_cons (o : Option FullyMergedBlock) (b : FullyMergedBlock)
    (bs : List FullyMergedBlock) : lastOr o (b :: bs) = lastOr (some b) bs := by
  cases bs with
  | nil => simp [lastOr]
  | cons c cs =>
    simp only [lastOr, List.getLast?_cons_cons]
    cases h : (c :: cs).getLast? with
    | none => simp at h
    | some x => rfl

theorem renderFrom_append (s : Settings) (o : Option FullyMergedBlock)
    (l₁ l₂ : List FullyMergedBlock) :
    renderFrom s o (l₁ ++ l₂) =
      renderFrom s o l₁ ++ renderFrom s (lastOr o l₁) l₂ := by
  induction l₁ generalizing o with
  | nil => simp [renderFrom, lastOr, String.empty_append]
  | cons b bs ih =>
    simp only [List.cons_append, renderFrom]
    rw [show renderFrom s (some b) (bs.append l₂) =
          renderFrom s (some b) bs ++ renderFrom s (lastOr (some b) bs) l₂ from
        ih (some b),
      String.append_assoc, lastOr_cons]

/-- C7 counterexample: the claim says the first non-page-boundary block of
the sequence is emitted with no leading separator, but when a page-boundary
marker precedes it (the normal paginated case), `prev_block` is the marker
(of block type `Text`) and the block is emitted after a blank-line
separator. -/
theorem first_block_after_marker_cex :
    get_full_text ⟨true, "", "Text"⟩
        [⟨"", "Text", true, some 1, none⟩, ⟨"Hello", "Text", false, some 1, none⟩] =
      "\n\n\x7b1\x7d\n\nHello" ∧
    get_full_text ⟨true, "", "Text"⟩
        [⟨"", "Text", true, some 1, none⟩, ⟨"Hello", "Text", false, some 1, none⟩] ≠
      "\n\n\x7b1\x7d" ++ "Hello" := by
  decide

/-- C7 (amended): in the assembled document, every non-page-boundary block
with a predecessor is emitted after a separator that is a blank line when
the immediately preceding block's type is `Text` (page-boundary markers
carry type `Text`) and a single newline otherwise; a non-page-boundary block
is emitted with no leading separator exactly when it is the very first
element of the sequence. -/
theorem block_separator_spec :
    (∀ (s : Settings) (pre : List FullyMergedBlock) (prev b : FullyMergedBlock)
        (post : List FullyMergedBlock),
      pre.getLast? = some prev →
      b.page_start = false →
      get_full_text s (pre ++ b :: post) =
        get_full_text s pre ++
          ((if prev.block_type = "Text" then "\n\n" else "\n") ++ b.text ++
            renderFrom s (some b) post)) ∧
    (∀ (s : Settings) (b : FullyMergedBlock) (post : List FullyMergedBlock),
      b.page_start = false →
      get_full_text s (b :: post) = b.text ++ renderFrom s (some b) post) := by
  constructor
  · intro s pre prev b post hlast hps
    rw [get_full_text, renderFrom_append]
    have hprev : lastOr none pre = some prev := by
      simp [lastOr, hlast]
    rw [hprev, get_full_text]
    congr 1
    simp [renderFrom, hps, block_separator, String.append_assoc]
  · intro s b post hps
    simp [get_full_text, renderFrom, hps]

/-- C7 witness: with a page marker followed by a `Text` block `"Hello"`, the
theorem instantiates to the concrete assembled string, whose separator
before `"Hello"` is a blank line. -/
theorem block_separator_spec_example :
    get_full_text ⟨true, "", "Text"⟩
        ([⟨"", "Text", true, some 1, none⟩] ++
          ⟨"Hello", "Text", false, some 1, none⟩ :: []) =
      get_full_text ⟨true, "", "Text"⟩ [⟨"", "Text", true, some 1, none⟩] ++
        ((if (⟨"", "Text", true, some 1, none⟩ : FullyMergedBlock).block_type = "Text"
            then "\n\n" else "\n") ++
          (⟨"Hello", "Text", false, some 1, none⟩ : FullyMergedBlock).text ++
          renderFrom ⟨true, "", "Text"⟩
            (some ⟨"Hello", "Text", false, some 1, none⟩) []) :=
  block_separator_spec.1 ⟨true, "", "Text"⟩ [⟨"", "Text", true, some 1, none⟩]
    ⟨"", "Text", true, some 1, none⟩ ⟨"Hello", "Text", false, some 1, none⟩ []
    (by decide) (by decide)

/-! ### Claim C4: the emphasis insertion rule of the span merger -/

/-- When some following span qualifies (stripped length `> 2`), the `while`
loop of markdown.py picks exactly the first qualifying one. -/
theorem findNextSpan_eq_find (l : List Span) (t : Span)
    (h : l.find? (fun u => decide (2 < (pyStrip u.text).length)) = some t) :
    findNextSpan l = some t := by
  induction l with
  | nil => simp [List.find?] at h
  | cons s rest ih =>
    cases rest with
    | nil =>
      rw [List.find?] at h
      split at h
      · simpa [findNextSpan] using h
      · simp [List.find?] at h
    | cons s' rest' =>
      rw [List.find?] at h
      split at h
      · rename_i hq
        simp only [findNextSpan]
        rw [if_pos (by simpa using hq)]
        exact h
      · rename_i hq
        simp only [findNextSpan]
        rw [if_neg (by simpa using hq)]
        exact ih h

/-- C4: for a span that is neither first nor last on its line and longer
than 3 characters, when the next span with stripped length `> 2` (scanning
forward, skipping shorter spans) exists: an italic span with a non-italic
lookahead is wrapped in `*`; otherwise a bold span with a non-bold lookahead
is wrapped in `**`.  Spans at line boundaries or of length at most 3 are
never wrapped. -/
theorem span_emphasis_rule :
    (∀ (spans : List Span) (i : Nat) (s t : Span),
      spans[i]? = some s →
      0 < i → i < spans.length - 1 →
      s.text.length > 3 →
      s.italic = true →
      (spans.drop (i + 1)).find?
        (fun u => decide (2 < (pyStrip u.text).length)) = some t →
      t.italic = false →
      spanText spans i s = surround_text s.text "*") ∧
    (∀ (spans : List Span) (i : Nat) (s t : Span),
      spans[i]? = some s →
      0 < i → i < spans.length - 1 →
      s.text.length > 3 →
      (s.italic = false ∨ t.italic = true) →
      s.bold = true →
      (spans.drop (i + 1)).find?
        (fun u => decide (2 < (pyStrip u.text).length)) = some t →
      t.bold = false →
      spanText spans i s = surround_text s.text "**") ∧
    (∀ (spans : List Span) (i : Nat) (s : Span),
      spans[i]? = some s →
      (i = 0 ∨ spans.length - 1 ≤ i ∨ s.text.length ≤ 3) →
      spanText spans i s = s.text) := by
  refine ⟨?_, ?_, ?_⟩
  · intro spans i s t _ h0 hlt hlen hit hfind htal
    simp only [spanText, findNextSpan_eq_find _ _ hfind]
    rw [if_pos ⟨hlen, h0, hlt⟩]
    simp [hit, htal]
  · intro spans i s t _ h0 hlt hlen hni hb hfind htb
    simp only [spanText, findNextSpan_eq_find _ _ hfind]
    rw [if_pos ⟨hlen, h0, hlt⟩]
    rcases hni with hni | hni
    · simp [hni, hb, htb]
    · cases hsi : s.italic <;> simp [hsi, hni, hb, htb]
  · intro spans i s _ hcase
    simp only [spanText]
    rw [if_neg]
    rintro ⟨hlen, h0, hlt⟩
    rcases hcase with h | h | h
    · omega
    · omega
    · omega

/-- C4 witness: the interior italic span `"middle"` of a three-span line,
whose lookahead `"ending"` is not italic, is wrapped in single emphasis
markers. -/
theorem span_emphasis_rule_example :
    spanText
        [⟨"start!", ⟨0, 0, 1, 1⟩, "f", false, false⟩,
         ⟨"middle", ⟨0, 0, 1, 1⟩, "f", false, true⟩,
         ⟨"ending", ⟨0, 0, 1, 1⟩, "f", false, false⟩] 1
        ⟨"middle", ⟨0, 0, 1, 1⟩, "f", false, true⟩ =
      surround_text "middle" "*" :=
  span_emphasis_rule.1
    [⟨"start!", ⟨0, 0, 1, 1⟩, "f", false, false⟩,
     ⟨"middle", ⟨0, 0, 1, 1⟩, "f", false, true⟩,
     ⟨"ending", ⟨0, 0, 1, 1⟩, "f", false, false⟩] 1
    ⟨"middle", ⟨0, 0, 1, 1⟩, "f", false, true⟩
    ⟨"ending", ⟨0, 0, 1, 1⟩, "f", false, false⟩
    (by decide) (by decide) (by decide) (by decide) (by decide) (by decide)
    (by decide)

/-! ### Claim C3: the positional tag of every merged line -/

/-- C3 counterexample: the claim says the tag's page number matches the
page's own page number, but the code uses the 1-based enumeration index of
the page in the input list: a single page whose `pnum` field is `5` yields
the tag `[[1_b_l]]`, which does not end in `[[5_b_l]]`. -/
theorem merged_line_tag_pnum_cex :
    merge_spans
        [⟨[⟨[⟨[⟨"hi", ⟨0, 0, 1, 1⟩, "f", false, false⟩], ⟨0, 0, 1, 1⟩, some "l"⟩],
            ⟨0, 0, 1, 1⟩, "Text", none, some "b"⟩], 5, ⟨0, 0, 9, 9⟩⟩] =
      [[⟨[⟨"hi [[1_b_l]]", ["f"], ⟨0, 0, 1, 1⟩⟩], 5, ⟨0, 0, 1, 1⟩, "Text",
          none, some "b"⟩]] ∧
    ("[[5_b_l]]".data.isSuffixOf "hi [[1_b_l]]".data) = false := by
  decide

/-- C3 (amended): for every line with at least one span, of a block at any
page of the input, the produced `MergedLine`'s text is suffixed with the
positional tag `[[\x7bpage\x7d_\x7bblockId\x7d_\x7blineId\x7d]]` whose block
and line identifiers are the ones supplied in the input and whose page
number is the 1-based position of the page in the input sequence (not the
page's `pnum` field). -/
theorem merged_line_tag (pages : List Page) (i : Nat) (page : Page)
    (hp : pages[i]? = some page) (block : Block) (hb : block ∈ page.blocks)
    (line : Line) (hl : line ∈ block.lines) (hs : line.spans ≠ []) :
    ∃ L, (merge_spans pages)[i]? = some L ∧
      ∃ mb ∈ L, ∃ ml ∈ mb.lines,
        ml.text = lineBody line.spans ++
          (" [[" ++ toString (i + 1) ++ "_" ++ pyStr block.id ++ "_" ++
            pyStr line.id ++ "]]") := by
  have hml : mergeLine (i + 1) block.id line =
      some ⟨lineBody line.spans ++ positionalTag (i + 1) block.id line.id,
        line.spans.map (fun s => pyLower s.font), line.bbox⟩ := by
    rw [mergeLine, if_neg hs]
  have hmemL :
      (⟨lineBody line.spans ++ positionalTag (i + 1) block.id line.id,
        line.spans.map (fun s => pyLower s.font),
        line.bbox⟩ : MergedLine) ∈
        block.lines.filterMap (mergeLine (i + 1) block.id) :=
    List.mem_filterMap.2 ⟨line, hl, hml⟩
  have hlines : block.lines.filterMap (mergeLine (i + 1) block.id) ≠ [] :=
    List.ne_nil_of_mem hmemL
  have hmb : mergeBlock (i + 1) page.pnum block =
      some ⟨block.lines.filterMap (mergeLine (i + 1) block.id), page.pnum,
        block.bbox, block.block_type, block.heading_level, block.id⟩ := by
    rw [mergeBlock]
    simp [hlines]
  have hmemB :
      (⟨block.lines.filterMap (mergeLine (i + 1) block.id), page.pnum,
        block.bbox, block.block_type, block.heading_level, block.id⟩ :
          MergedBlock) ∈
        page.blocks.filterMap (mergeBlock (i + 1) page.pnum) :=
    List.mem_filterMap.2 ⟨block, hb, hmb⟩
  have hpb : page.blocks.filterMap (mergeBlock (i + 1) page.pnum) ≠ [] :=
    List.ne_nil_of_mem hmemB
  have hpage : mergePage (i + 1) page =
      page.blocks.filterMap (mergeBlock (i + 1) page.pnum) := by
    rw [mergePage]
    simp [hpb]
  have hms : (merge_spans pages)[i]? = some (mergePage (i + 1) page) := by
    rw [merge_spans, List.getElem?_map, List.getElem?_enum, hp]
    rfl
  refine ⟨mergePage (i + 1) page, hms,
    ⟨block.lines.filterMap (mergeLine (i + 1) block.id), page.pnum, block.bbox,
      block.block_type, block.heading_level, block.id⟩, ?_,
    ⟨lineBody line.spans ++ positionalTag (i + 1) block.id line.id,
      line.spans.map (fun s => pyLower s.font), line.bbox⟩,
    ?_, ?_⟩
  · rw [hpage]
    exact hmemB
  · exact hmemL
  · rfl

/-- C3 witness: a page at position 0 with block id `b0` and line id `l0`
produces a merged line whose text carries the tag `[[1_b0_l0]]`. -/
theorem merged_line_tag_example :
    ∃ L,
      (merge_spans
        [⟨[⟨[⟨[⟨"hi", ⟨0, 0, 1, 1⟩, "f", false, false⟩], ⟨0, 0, 1, 1⟩,
              some "l0"⟩], ⟨0, 0, 1, 1⟩, "Text", none, some "b0"⟩], 0,
          ⟨0, 0, 9, 9⟩⟩])[0]? = some L ∧
      ∃ mb ∈ L, ∃ ml ∈ mb.lines,
        ml.text = lineBody [⟨"hi", ⟨0, 0, 1, 1⟩, "f", false, false⟩] ++
          (" [[" ++ toString (0 + 1) ++ "_" ++ pyStr (some "b0") ++ "_" ++
            pyStr (some "l0") ++ "]]") :=
  merged_line_tag
    [⟨[⟨[⟨[⟨"hi", ⟨0, 0, 1, 1⟩, "f", false, false⟩], ⟨0, 0, 1, 1⟩,
          some "l0"⟩], ⟨0, 0, 1, 1⟩, "Text", none, some "b0"⟩], 0,
      ⟨0, 0, 9, 9⟩⟩] 0
    ⟨[⟨[⟨[⟨"hi", ⟨0, 0, 1, 1⟩, "f", false, false⟩], ⟨0, 0, 1, 1⟩,
        some "l0"⟩], ⟨0, 0, 1, 1⟩, "Text", none, some "b0"⟩], 0, ⟨0, 0, 9, 9⟩⟩
    (by decide)
    ⟨[⟨[⟨"hi", ⟨0, 0, 1, 1⟩, "f", false, false⟩], ⟨0, 0, 1, 1⟩, some "l0"⟩],
      ⟨0, 0, 1, 1⟩, "Text", none, some "b0"⟩
    (by decide)
    ⟨[⟨"hi", ⟨0, 0, 1, 1⟩, "f", false, false⟩], ⟨0, 0, 1, 1⟩, some "l0"⟩
    (by decide) (by decide)

end Marker
